import Mathlib

/-!
Verification of the web_music signal-conditioning pipeline.

Shallow embedding of the per-tick signal processing code of the repository:
the stereo RMS meter of channel-meters.js, the bar smoothing / peak-hold and
history ring of audio-visualizer.js, the particle field, band energies and
sigmoid shaper of the docs variant, and the noise-profile persistence of the
noise-aware variant.  JS numbers are modelled as rationals where only field
operations and comparisons occur, and as reals where sqrt, pow or exp appear.
-/

namespace WebMusic

/-! ## StereoMeter hysteresis blend (channel-meters.js, calculateFilteredRMS) -/

/-- Field this.historySize of ChannelMeters (channel-meters.js line 18). -/
def historySize : ℕ := 3

/-- Embedding of: history.push(percentage); if (history.length > this.historySize)
history.shift();  (channel-meters.js lines 139-142).  push appends at the end,
shift removes the front element. -/
def pushHistory {α : Type} (history : List α) (p : α) : List α :=
  let h := history ++ [p]
  if historySize < h.length then h.tail else h

/-- Embedding of history.slice(-2): the last two elements of the array. -/
def lastTwo {α : Type} (h : List α) : List α := h.drop (h.length - 2)

/-- Lines 138-157 of channel-meters.js: push the just-computed percentage into
the short history, return it directly when fewer than 2 samples exist, and
otherwise blend it with recentAvg = mean of history.slice(-2).  The source sets
currentWeight = 0.4 when percentage > recentAvg and 0.6 otherwise.  Returns the
blended value together with the updated history. -/
def blendStage {α : Type} [LinearOrderedField α] (history : List α) (percentage : α) :
    α × List α :=
  let h := pushHistory history percentage
  if h.length < 2 then (percentage, h)
  else
    let recentAvg := (lastTwo h).sum / 2
    if recentAvg < percentage then
      (max 0 (percentage * 0.4 + recentAvg * 0.6), h)
    else
      (max 0 (percentage * 0.6 + recentAvg * 0.4), h)

/-- Modelled from the spec wording of the blend step, for comparison with
blendStage: recentAvg is the mean of the last 2 history entries BEFORE the
current push, the new value gets weight 0.6 when it exceeds recentAvg (attack)
and weight 0.4 when it is below (decay). -/
def blendStageSpec (history : List ℚ) (percentage : ℚ) : ℚ :=
  let recentAvg := (lastTwo history).sum / 2
  if recentAvg < percentage then percentage * 0.6 + recentAvg * 0.4
  else percentage * 0.4 + recentAvg * 0.6

/-- Closed form of what the source actually computes at the blend step:
recentAvg is the mean of the most recent PRIOR history entry and the
just-computed value (the post-push slice(-2) window), the new value gets
weight 0.4 when it exceeds recentAvg and 0.6 otherwise, and the blend is
floored at 0. -/
def blendStageAmended (history : List ℚ) (percentage : ℚ) : ℚ :=
  let recentAvg := (history.getLastD 0 + percentage) / 2
  if recentAvg < percentage then max 0 (percentage * 0.4 + recentAvg * 0.6)
  else max 0 (percentage * 0.6 + recentAvg * 0.4)

lemma getLastD_irrel (t : List ℚ) (ht : t ≠ []) (d₁ d₂ : ℚ) :
    t.getLastD d₁ = t.getLastD d₂ := by
  simp only [List.getLastD_eq_getLast?]
  cases h : t.getLast? with
  | none => exact absurd (List.getLast?_eq_none_iff.mp h) ht
  | some x => rfl

lemma drop_len_sub_one_append (l : List ℚ) (p : ℚ) (hl : l ≠ []) :
    (l ++ [p]).drop (l.length - 1) = [l.getLastD 0, p] := by
  induction l with
  | nil => exact absurd rfl hl
  | cons a t ih =>
    cases t with
    | nil => simp [List.getLastD]
    | cons b u =>
      have ht : (b :: u) ≠ [] := by simp
      have step := ih ht
      have hidx : (a :: b :: u).length - 1 = ((b :: u).length - 1) + 1 := by
        simp
      rw [hidx, List.cons_append, List.drop_succ_cons, step,
        List.getLastD_cons 0 a (b :: u), getLastD_irrel (b :: u) ht a 0]

lemma lastTwo_append_singleton (l : List ℚ) (p : ℚ) (hl : l ≠ []) :
    lastTwo (l ++ [p]) = [l.getLastD 0, p] := by
  have hidx : (l ++ [p]).length - 2 = l.length - 1 := by simp
  rw [lastTwo, hidx, drop_len_sub_one_append l p hl]

lemma getLastD_tail_of_two_le (l : List ℚ) (h : 2 ≤ l.length) :
    l.tail.getLastD 0 = l.getLastD 0 := by
  cases l with
  | nil => simp at h
  | cons a t =>
    cases t with
    | nil => simp at h
    | cons b u =>
      rw [List.tail_cons, List.getLastD_cons 0 a (b :: u)]
      exact getLastD_irrel (b :: u) (by simp) 0 a

lemma lastTwo_pushHistory (l : List ℚ) (p : ℚ) (hl : l ≠ []) :
    lastTwo (pushHistory l p) = [l.getLastD 0, p] := by
  unfold pushHistory
  simp only [List.length_append, List.length_singleton]
  by_cases hc : historySize < l.length + 1
  · rw [if_pos hc]
    have hlen : 2 ≤ l.length := by
      simp only [historySize] at hc; omega
    have htail : (l ++ [p]).tail = l.tail ++ [p] := by
      cases l with
      | nil => exact absurd rfl hl
      | cons a t => simp
    rw [htail]
    have htne : l.tail ≠ [] := by
      cases l with
      | nil => exact absurd rfl hl
      | cons a t =>
        simp only [List.tail_cons]
        intro h
        subst h
        simp at hlen
    rw [lastTwo_append_singleton _ _ htne, getLastD_tail_of_two_le _ hlen]
  · rw [if_neg hc]
    exact lastTwo_append_singleton l p hl

lemma two_le_pushHistory_length (l : List ℚ) (p : ℚ) (hl : l ≠ []) :
    2 ≤ (pushHistory l p).length := by
  unfold pushHistory
  have h1 : 1 ≤ l.length := List.length_pos.mpr hl
  simp only [List.length_append, List.length_singleton]
  by_cases hc : historySize < l.length + 1
  · rw [if_pos hc]
    have : (l ++ [p]).tail.length = l.length + 1 - 1 := by
      simp [List.length_tail]
    simp only [historySize] at hc
    rw [this]; omega
  · rw [if_neg hc]; simp; omega

/-- C1, counterexample.  With prior history [10, 20] and a freshly computed
percentage 30, the blend step is reached (post-push history has 3 entries) and
the source returns 27 = 0.4 * 30 + 0.6 * ((20 + 30) / 2), while the spec
formula (recentAvg over the pre-push window, attack weight 0.6 on the new
value) yields 24 = 0.6 * 30 + 0.4 * ((10 + 20) / 2). -/
theorem blendStage_spec_counterexample :
    2 ≤ (pushHistory [(10 : ℚ), 20] 30).length ∧
    (blendStage [(10 : ℚ), 20] 30).1 = 27 ∧
    blendStageSpec [(10 : ℚ), 20] 30 = 24 ∧
    (blendStage [(10 : ℚ), 20] 30).1 ≠ blendStageSpec [(10 : ℚ), 20] 30 := by
  refine ⟨by decide, by norm_num [blendStage, pushHistory, lastTwo, historySize],
    by norm_num [blendStageSpec, lastTwo], ?_⟩
  norm_num [blendStage, blendStageSpec, pushHistory, lastTwo, historySize]

/-- C1, amended.  On every tick on which calculateFilteredRMS reaches the
blending step (a nonempty prior history, hence at least 2 post-push samples),
the result blends the new value with recentAvg = mean of the last 2 entries of
the history AFTER the current value is pushed (so the window includes the
just-computed value, and recentAvg is the mean of the most recent prior entry
and the new value); the new value gets weight 0.4 and recentAvg weight 0.6
when the new value exceeds recentAvg, and weights 0.6 / 0.4 otherwise, with
the blend floored at 0. -/
theorem blendStage_amended_eq (history : List ℚ) (percentage : ℚ) (hne : history ≠ []) :
    (blendStage history percentage).1 = blendStageAmended history percentage := by
  have h2 := two_le_pushHistory_length history percentage hne
  have hlt := lastTwo_pushHistory history percentage hne
  unfold blendStage blendStageAmended
  simp only [hlt]
  rw [if_neg (by omega)]
  simp only [List.sum_cons, List.sum_nil, add_zero, List.getLastD_eq_getLast?]
  split_ifs <;> rfl

/-- Witness for blendStage_amended_eq at history = [10, 20], percentage = 30. -/
theorem blendStage_amended_eq_witness :
    ([(10 : ℚ), 20] : List ℚ) ≠ [] ∧
    (blendStage [(10 : ℚ), 20] 30).1 = blendStageAmended [(10 : ℚ), 20] 30 :=
  ⟨by decide, blendStage_amended_eq [(10 : ℚ), 20] 30 (by decide)⟩

/-! ## HistoryRing (audio-visualizer.js / docs app.js, updateSpectrumHistory) -/

/-- Embedding of updateSpectrumHistory: this.spectrumHistory.unshift(snapshot);
if (this.spectrumHistory.length > maxLayers) this.spectrumHistory.pop();
unshift prepends (newest first), pop removes the last (oldest) element, and the
guard is a single if, so at most one entry is dropped per tick. -/
def updateSpectrumHistory (maxLayers : ℕ) (current : List ℚ) (history : List (List ℚ)) :
    List (List ℚ) :=
  let h := current :: history
  if maxLayers < h.length then h.dropLast else h

/-- Repeated ticks of updateSpectrumHistory under a fixed capacity, starting
from the empty ring, fed the given snapshots oldest first. -/
def ringRun (maxLayers : ℕ) (inputs : List (List ℚ)) : List (List ℚ) :=
  inputs.foldl (fun h v => updateSpectrumHistory maxLayers v h) []

lemma updateSpectrumHistory_take (cap : ℕ) (v : List ℚ) (pr : List (List ℚ)) :
    updateSpectrumHistory cap v (pr.take cap) = (v :: pr).take cap := by
  unfold updateSpectrumHistory
  cases cap with
  | zero => simp
  | succ n =>
    by_cases hlen : pr.length < n + 1
    · rw [List.take_of_length_le (le_of_lt hlen)]
      rw [if_neg (by simp; omega)]
      rw [List.take_succ_cons, List.take_of_length_le (by omega)]
    · push_neg at hlen
      have htk : (pr.take (n + 1)).length = n + 1 := by
        rw [List.length_take]; omega
      rw [if_pos (by simp [htk])]
      rw [List.dropLast_eq_take]
      simp only [List.length_cons, htk, Nat.add_sub_cancel]
      rw [List.take_succ_cons, List.take_succ_cons, List.take_take]
      have hmin : min n (n + 1) = n := min_eq_left (by omega)
      rw [hmin]

lemma ringRun_foldl_take (cap : ℕ) (inputs : List (List ℚ)) (pr : List (List ℚ)) :
    inputs.foldl (fun h v => updateSpectrumHistory cap v h) (pr.take cap) =
      (inputs.reverse ++ pr).take cap := by
  induction inputs generalizing pr with
  | nil => simp
  | cons v t ih =>
    rw [List.foldl_cons, updateSpectrumHistory_take cap v pr, ih (v :: pr)]
    simp

/-- C4, counterexample.  Fill the ring to 15 entries at capacity 15 (the
expanded display mode), then shrink the capacity to 10 (the normal mode) and
run one update: the ring still holds 15 entries, exceeding the capacity, so
the excess old entries are NOT dropped immediately at the next update. -/
theorem spectrumHistory_shrink_counterexample :
    (ringRun 15 (List.replicate 15 [1])).length = 15 ∧
    10 < (updateSpectrumHistory 10 [2] (ringRun 15 (List.replicate 15 [1]))).length := by
  constructor <;> decide

/-- C4, amended.  Under a fixed capacity the ring equals the reversed input
prefix of length capacity: it never exceeds the capacity, holds exactly
min(capacity, ticks-pushed) entries, newest first.  But when the ring is
longer than the (shrunk) capacity, one update pushes one entry and pops only
one, so the length stays constant: the excess old entries are never dropped
while the capacity remains below the length, the ring merely rotates. -/
theorem spectrumHistory_ring_amended :
    (∀ (cap : ℕ) (inputs : List (List ℚ)),
      ringRun cap inputs = inputs.reverse.take cap ∧
      (ringRun cap inputs).length = min cap inputs.length) ∧
    (∀ (cap : ℕ) (v : List ℚ) (h : List (List ℚ)), cap < h.length →
      (updateSpectrumHistory cap v h).length = h.length) := by
  constructor
  · intro cap inputs
    have h0 : (ringRun cap inputs) = (inputs.reverse ++ []).take cap := by
      rw [ringRun, ← ringRun_foldl_take cap inputs []]
      simp
    rw [List.append_nil] at h0
    refine ⟨h0, ?_⟩
    rw [h0, List.length_take, List.length_reverse]
  · intro cap v h hlt
    unfold updateSpectrumHistory
    rw [if_pos (by simp; omega)]
    simp

/-- Witness for spectrumHistory_ring_amended at capacity 10 and a ring of 15
entries. -/
theorem spectrumHistory_ring_amended_witness :
    10 < (List.replicate 15 ([1] : List ℚ)).length ∧
    (updateSpectrumHistory 10 [2] (List.replicate 15 ([1] : List ℚ))).length =
      (List.replicate 15 ([1] : List ℚ)).length :=
  ⟨by decide, spectrumHistory_ring_amended.2 10 [2] (List.replicate 15 [1]) (by decide)⟩

/-! ## NoiseProfile persistence (noise-aware variant, saveNoiseProfile /
loadStoredNoiseProfile) -/

/-- Stored record written by saveNoiseProfile: a creation timestamp in
milliseconds and the per-bin noise values. -/
structure StoredProfile where
  timestamp : ℤ
  noiseProfile : List ℚ
deriving DecidableEq

/-- Freshness TTL used by loadStoredNoiseProfile: 7 * 24 * 60 * 60 * 1000 ms. -/
def profileTTL : ℤ := 7 * 24 * 60 * 60 * 1000

/-- Embedding of saveNoiseProfile: store { timestamp: Date.now(),
noiseProfile: Array.from(this.backgroundNoise) }, replacing any previous
record. -/
def saveNoiseProfile (now : ℤ) (backgroundNoise : List ℚ) : Option StoredProfile :=
  some ⟨now, backgroundNoise⟩

/-- Embedding of loadStoredNoiseProfile: when a record exists and its age
Date.now() - profile.timestamp is strictly below the TTL, install its values
as the in-memory profile and report true; otherwise leave the in-memory
profile empty (null) and report false.  Returns the resulting in-memory
profile and the reported flag. -/
def loadStoredNoiseProfile (now : ℤ) (stored : Option StoredProfile) :
    Option (List ℚ) × Bool :=
  match stored with
  | some profile =>
      if now - profile.timestamp < profileTTL then (some profile.noiseProfile, true)
      else (none, false)
  | none => (none, false)

/-- C9.  Saving a noise profile and loading it strictly within the 7-day TTL
restores the identical value array (and the stored record keeps the identical
timestamp); loading at or beyond the TTL yields none: the loaded values are
discarded and the in-memory profile is empty. -/
theorem noiseProfile_roundtrip_ttl (values : List ℚ) (tSave tLoad : ℤ) :
    (tLoad - tSave < profileTTL →
      saveNoiseProfile tSave values = some ⟨tSave, values⟩ ∧
      loadStoredNoiseProfile tLoad (saveNoiseProfile tSave values) = (some values, true)) ∧
    (profileTTL ≤ tLoad - tSave →
      loadStoredNoiseProfile tLoad (saveNoiseProfile tSave values) = (none, false)) := by
  constructor
  · intro hfresh
    exact ⟨rfl, by simp [loadStoredNoiseProfile, saveNoiseProfile, hfresh]⟩
  · intro hstale
    simp [loadStoredNoiseProfile, saveNoiseProfile, not_lt.mpr hstale]

/-- Witness for noiseProfile_roundtrip_ttl: a save at time 0 loaded at time 1
(fresh) and at time profileTTL (expired). -/
theorem noiseProfile_roundtrip_ttl_witness :
    ((1 : ℤ) - 0 < profileTTL ∧
      saveNoiseProfile 0 [1, 2] = some ⟨0, [1, 2]⟩ ∧
      loadStoredNoiseProfile 1 (saveNoiseProfile 0 [1, 2]) = (some [1, 2], true)) ∧
    (profileTTL ≤ profileTTL - 0 ∧
      loadStoredNoiseProfile profileTTL (saveNoiseProfile 0 [1, 2]) = (none, false)) :=
  ⟨⟨by decide, (noiseProfile_roundtrip_ttl [1, 2] 0 1).1 (by decide)⟩,
   ⟨by decide, (noiseProfile_roundtrip_ttl [1, 2] 0 profileTTL).2 (by decide)⟩⟩

/-! ## BarTrack (audio-visualizer.js, animate loop lines 130-142 and
processAudioLevel lines 227-231) -/

/-- Per-bar state: barSmoothValues[i], barPeaks[i], barPeakTimes[i]. -/
structure BarState where
  smoothed : ℚ
  peak : ℚ
  peakTime : ℚ
deriving DecidableEq

/-- Field this.smoothingFactor (audio-visualizer.js line 17). -/
def smoothingFactor : ℚ := 0.3

/-- Field this.peakHoldTime (audio-visualizer.js line 13), in milliseconds. -/
def peakHoldTime : ℚ := 200

/-- Embedding of processAudioLevel of src/audio-visualizer.js: scale the raw
averaged magnitude to a percentage and clamp into [1, 100]. -/
def processAudioLevel (rawLevel : ℚ) : ℚ :=
  let barHeight := rawLevel / 255 * 100
  max 1 (min 100 barHeight)

/-- Embedding of one tick of the per-bar update (animate, lines 130-142):
exponential smoothing toward barHeight, the peak-hold / decay state machine,
and the write-back of the displayed value max(smoothed, peak * 0.5) into
smoothed. -/
def barTick (currentTime barHeight : ℚ) (st : BarState) : BarState :=
  let s := st.smoothed + (barHeight - st.smoothed) * smoothingFactor
  if st.peak < s then
    { smoothed := max s (s * 0.5), peak := s, peakTime := currentTime }
  else if peakHoldTime < currentTime - st.peakTime then
    { smoothed := max s (max (st.peak * 0.85) s * 0.5),
      peak := max (st.peak * 0.85) s, peakTime := st.peakTime }
  else
    { smoothed := max s (max (st.peak * 0.98) s * 0.5),
      peak := max (st.peak * 0.98) s, peakTime := st.peakTime }

/-- Trajectory of one bar fed a zero raw magnitude on every tick, from the
initial all-zero state, with ticks 16 ms apart. -/
def zeroInputTraj : ℕ → BarState
  | 0 => ⟨0, 0, 0⟩
  | n + 1 => barTick (16 * (n + 1)) (processAudioLevel 0) (zeroInputTraj n)

/-- Trajectory of one bar from the initial all-zero state over an arbitrary
sequence of (tick time, raw averaged magnitude) inputs. -/
def barRun (inputs : List (ℚ × ℚ)) : BarState :=
  inputs.foldl (fun st x => barTick x.1 (processAudioLevel x.2) st) ⟨0, 0, 0⟩

lemma processAudioLevel_zero : processAudioLevel 0 = 1 := by
  norm_num [processAudioLevel]

lemma zeroInputTraj_closed_form (n : ℕ) :
    zeroInputTraj n = ⟨1 - (7 / 10 : ℚ) ^ n, 1 - (7 / 10 : ℚ) ^ n, 16 * n⟩ := by
  induction n with
  | zero => simp [zeroInputTraj]
  | succ n ih =>
    have hpow : (0 : ℚ) < (7 / 10 : ℚ) ^ n := by positivity
    have hsf : smoothingFactor = 3 / 10 := by norm_num [smoothingFactor]
    rw [zeroInputTraj, ih, processAudioLevel_zero]
    simp only [barTick, hsf]
    have hs : (1 - (7 / 10 : ℚ) ^ n) + (1 - (1 - (7 / 10 : ℚ) ^ n)) * (3 / 10) =
        1 - (7 / 10 : ℚ) ^ (n + 1) := by
      rw [pow_succ]; ring
    rw [hs]
    have hcond : (1 - (7 / 10 : ℚ) ^ n) < 1 - (7 / 10 : ℚ) ^ (n + 1) := by
      rw [pow_succ]; nlinarith
    rw [if_pos hcond]
    have hq1 : (7 / 10 : ℚ) ^ (n + 1) ≤ 1 := pow_le_one₀ (by norm_num) (by norm_num)
    have hmax : max (1 - (7 / 10 : ℚ) ^ (n + 1)) ((1 - (7 / 10 : ℚ) ^ (n + 1)) * 0.5) =
        1 - (7 / 10 : ℚ) ^ (n + 1) := max_eq_left (by nlinarith)
    rw [hmax, BarState.mk.injEq]
    refine ⟨rfl, rfl, ?_⟩
    push_cast
    ring

/-- C2, counterexample.  Feeding a bar the raw magnitude 0 on every tick from
the initial all-zero state, the smoothed value does NOT converge to 0: the
shaper floors every level at 1, so the smoothed value is 1 - (7/10)^n, which
tends to 1. -/
theorem zeroInput_smoothed_not_tendsto_zero :
    ¬ Filter.Tendsto (fun n => ((zeroInputTraj n).smoothed : ℝ))
        Filter.atTop (nhds 0) := by
  have heq : (fun n => ((zeroInputTraj n).smoothed : ℝ)) =
      fun n => 1 - (7 / 10 : ℝ) ^ n := by
    funext n
    rw [zeroInputTraj_closed_form n]
    push_cast
    ring
  have h1 : Filter.Tendsto (fun n => ((zeroInputTraj n).smoothed : ℝ))
      Filter.atTop (nhds 1) := by
    rw [heq]
    have := tendsto_pow_atTop_nhds_zero_of_lt_one
      (by norm_num : (0 : ℝ) ≤ 7 / 10) (by norm_num : (7 / 10 : ℝ) < 1)
    have h2 := Filter.Tendsto.const_sub (1 : ℝ) this
    simpa using h2
  intro h0
  have := tendsto_nhds_unique h0 h1
  norm_num at this

/-- C2, amended.  With zero raw input on every tick from the initial all-zero
state, the level shaper floors every tick at 1, so the bar's smoothed value
converges to 1 (not 0) and the peak also converges to 1; both stay
nonnegative at every tick (never below 0). -/
theorem zeroInput_converges_to_floor :
    Filter.Tendsto (fun n => ((zeroInputTraj n).smoothed : ℝ)) Filter.atTop (nhds 1) ∧
    Filter.Tendsto (fun n => ((zeroInputTraj n).peak : ℝ)) Filter.atTop (nhds 1) ∧
    ∀ n, 0 ≤ (zeroInputTraj n).smoothed ∧ 0 ≤ (zeroInputTraj n).peak := by
  have key : ∀ n, (zeroInputTraj n).smoothed = 1 - (7 / 10 : ℚ) ^ n ∧
      (zeroInputTraj n).peak = 1 - (7 / 10 : ℚ) ^ n := by
    intro n
    rw [zeroInputTraj_closed_form n]
    exact ⟨rfl, rfl⟩
  have hlim : Filter.Tendsto (fun n => 1 - (7 / 10 : ℝ) ^ n) Filter.atTop (nhds 1) := by
    have := tendsto_pow_atTop_nhds_zero_of_lt_one
      (by norm_num : (0 : ℝ) ≤ 7 / 10) (by norm_num : (7 / 10 : ℝ) < 1)
    have h2 := Filter.Tendsto.const_sub (1 : ℝ) this
    simpa using h2
  refine ⟨?_, ?_, ?_⟩
  · have heq : (fun n => ((zeroInputTraj n).smoothed : ℝ)) =
        fun n => 1 - (7 / 10 : ℝ) ^ n := by
      funext n; rw [(key n).1]; push_cast; ring
    rw [heq]; exact hlim
  · have heq : (fun n => ((zeroInputTraj n).peak : ℝ)) =
        fun n => 1 - (7 / 10 : ℝ) ^ n := by
      funext n; rw [(key n).2]; push_cast; ring
    rw [heq]; exact hlim
  · intro n
    have h1 : (7 / 10 : ℚ) ^ n ≤ 1 := pow_le_one₀ (by norm_num) (by norm_num)
    rw [(key n).1, (key n).2]
    constructor <;> linarith

lemma processAudioLevel_bounds (rawLevel : ℚ) :
    1 ≤ processAudioLevel rawLevel ∧ processAudioLevel rawLevel ≤ 100 := by
  unfold processAudioLevel
  refine ⟨le_max_left _ _, max_le (by norm_num) ?_⟩
  exact min_le_left _ _

lemma barTick_bounds (currentTime level : ℚ) (st : BarState)
    (hs0 : 0 ≤ st.smoothed) (hs1 : st.smoothed ≤ 100)
    (_hp0 : 0 ≤ st.peak) (hp1 : st.peak ≤ 100)
    (hl0 : 0 ≤ level) (hl1 : level ≤ 100) :
    0 ≤ (barTick currentTime level st).smoothed ∧
    (barTick currentTime level st).smoothed ≤ 100 ∧
    0 ≤ (barTick currentTime level st).peak ∧
    (barTick currentTime level st).peak ≤ 100 := by
  have hsf : smoothingFactor = 3 / 10 := by norm_num [smoothingFactor]
  simp only [barTick, hsf]
  have hs0' : (0 : ℚ) ≤ st.smoothed + (level - st.smoothed) * (3 / 10) := by nlinarith
  have hs1' : st.smoothed + (level - st.smoothed) * (3 / 10) ≤ 100 := by nlinarith
  split_ifs with h1 h2
  · exact ⟨le_trans hs0' (le_max_left _ _), max_le hs1' (by nlinarith), hs0', hs1'⟩
  · have hp1' : max (st.peak * 0.85) (st.smoothed + (level - st.smoothed) * (3 / 10)) ≤ 100 :=
      max_le (by nlinarith) hs1'
    exact ⟨le_trans hs0' (le_max_left _ _), max_le hs1' (by nlinarith),
      le_trans hs0' (le_max_right _ _), hp1'⟩
  · have hp1' : max (st.peak * 0.98) (st.smoothed + (level - st.smoothed) * (3 / 10)) ≤ 100 :=
      max_le (by nlinarith) hs1'
    exact ⟨le_trans hs0' (le_max_left _ _), max_le hs1' (by nlinarith),
      le_trans hs0' (le_max_right _ _), hp1'⟩

lemma barRun_foldl_bounds (inputs : List (ℚ × ℚ)) (st : BarState)
    (hs0 : 0 ≤ st.smoothed) (hs1 : st.smoothed ≤ 100)
    (hp0 : 0 ≤ st.peak) (hp1 : st.peak ≤ 100) :
    0 ≤ (inputs.foldl (fun st x => barTick x.1 (processAudioLevel x.2) st) st).smoothed ∧
    (inputs.foldl (fun st x => barTick x.1 (processAudioLevel x.2) st) st).smoothed ≤ 100 ∧
    0 ≤ (inputs.foldl (fun st x => barTick x.1 (processAudioLevel x.2) st) st).peak ∧
    (inputs.foldl (fun st x => barTick x.1 (processAudioLevel x.2) st) st).peak ≤ 100 := by
  induction inputs generalizing st with
  | nil => exact ⟨hs0, hs1, hp0, hp1⟩
  | cons a t ih =>
    rw [List.foldl_cons]
    have hl := processAudioLevel_bounds a.2
    have hb := barTick_bounds a.1 (processAudioLevel a.2) st hs0 hs1 hp0 hp1
      (by linarith [hl.1]) hl.2
    exact ih _ hb.1 hb.2.1 hb.2.2.1 hb.2.2.2

/-- C5.  Starting from the initial all-zero state, for every input sequence of
tick times and raw averaged magnitudes in [0, 255], the bar's smoothed value
and peak stay inside [0, 100] — including through the write-back of the
displayed value max(smoothed, peak * 0.5) into smoothed each tick. -/
theorem barTrack_bounds_invariant (inputs : List (ℚ × ℚ))
    (_hin : ∀ x ∈ inputs, 0 ≤ x.2 ∧ x.2 ≤ 255) :
    0 ≤ (barRun inputs).smoothed ∧ (barRun inputs).smoothed ≤ 100 ∧
    0 ≤ (barRun inputs).peak ∧ (barRun inputs).peak ≤ 100 :=
  barRun_foldl_bounds inputs ⟨0, 0, 0⟩ le_rfl (by norm_num) le_rfl (by norm_num)

/-- Witness for barTrack_bounds_invariant on the two-tick input sequence
[(16, 255), (32, 0)]. -/
theorem barTrack_bounds_invariant_witness :
    (∀ x ∈ [((16 : ℚ), (255 : ℚ)), (32, 0)], 0 ≤ x.2 ∧ x.2 ≤ 255) ∧
    (0 ≤ (barRun [((16 : ℚ), (255 : ℚ)), (32, 0)]).smoothed ∧
      (barRun [((16 : ℚ), (255 : ℚ)), (32, 0)]).smoothed ≤ 100 ∧
      0 ≤ (barRun [((16 : ℚ), (255 : ℚ)), (32, 0)]).peak ∧
      (barRun [((16 : ℚ), (255 : ℚ)), (32, 0)]).peak ≤ 100) :=
  ⟨by decide, barTrack_bounds_invariant [((16 : ℚ), (255 : ℚ)), (32, 0)] (by decide)⟩

/-! ## ParticleField (docs app.js, spawnParticle / updateParticles) and the
full AudioVisualizer state with stop -/

/-- Particle record of docs app.js (spawnParticle lines 681-689).  The color
field is a CSS string used only for drawing and is represented by the bar
index it is derived from (getFrequencyColor is a pure function of barIndex
and intensity). -/
structure Particle where
  x : ℚ
  y : ℚ
  vx : ℚ
  vy : ℚ
  life : ℚ
  decay : ℚ
  size : ℚ
  frequency : ℕ
deriving DecidableEq

/-- Field this.maxParticles (docs app.js line 363). -/
def maxParticles : ℕ := 200

/-- Live particle list and free pool of the docs AudioVisualizer. -/
structure ParticleSim where
  particles : List Particle
  particlePool : List Particle
deriving DecidableEq

/-- Embedding of spawnParticle (docs app.js lines 665-692).  The geometry
fields set by setupCanvas (baseBarWidth, baseBarSpacing, marginWidth, canvas
size) and the three Math.random() draws are passed as parameters.  The guard
refuses the spawn when the live list is at maxParticles; otherwise a particle
is taken from the pool (pop from the end; a fresh one if the pool is empty),
every field is overwritten, and it is pushed onto the live list. -/
def spawnParticle (geomBarWidth geomBarSpacing geomMarginWidth canvasWidth canvasHeight
    rndVx rndVy rndDecay : ℚ) (barIndex : ℕ) (height intensity : ℚ)
    (sim : ParticleSim) : ParticleSim :=
  if maxParticles ≤ sim.particles.length then sim
  else
    let totalWidth := 48 * geomBarWidth + (48 - 1) * geomBarSpacing + 2 * geomMarginWidth
    let startX := (canvasWidth - totalWidth) / 2 + geomMarginWidth
    let particle : Particle :=
      { x := startX + (barIndex : ℚ) * (geomBarWidth + geomBarSpacing) + geomBarWidth / 2
        y := canvasHeight * 0.9 - height / 100 * canvasHeight * 0.7
        vx := (rndVx - 0.5) * 2
        vy := -rndVy * 3 - 1
        life := 1
        decay := 0.01 + rndDecay * 0.01
        size := 2 + intensity / 100 * 3
        frequency := barIndex }
    { particles := sim.particles ++ [particle]
      particlePool := sim.particlePool.dropLast }

/-- Embedding of the per-particle physics step of updateParticles (docs app.js
lines 739-743): position += velocity, gravity on vy, drag on vx, life -=
decay.  Position updates use the pre-update velocity, matching statement
order. -/
def stepParticle (p : Particle) : Particle :=
  { p with
    x := p.x + p.vx
    y := p.y + p.vy
    vy := p.vy + 0.1
    vx := p.vx * 0.99
    life := p.life - p.decay }

/-- Embedding of updateParticles (docs app.js lines 735-750): step every
particle, remove the ones whose life dropped to ≤ 0 (order of survivors
preserved) and return them to the free pool (appended in reverse index order,
matching the backwards splice loop). -/
def updateParticles (sim : ParticleSim) : ParticleSim :=
  let stepped := sim.particles.map stepParticle
  { particles := stepped.filter (fun p => decide (0 < p.life))
    particlePool := sim.particlePool ++ (stepped.filter (fun p => decide (p.life ≤ 0))).reverse }

/-- One per-tick operation on the particle simulation: a spawn attempt with
its geometry and random draws, or the physics update. -/
inductive SimOp where
  | spawn (geomBarWidth geomBarSpacing geomMarginWidth canvasWidth canvasHeight
      rndVx rndVy rndDecay : ℚ) (barIndex : ℕ) (height intensity : ℚ)
  | update

def applySimOp (sim : ParticleSim) : SimOp → ParticleSim
  | .spawn a b c d e f g h i j k => spawnParticle a b c d e f g h i j k sim
  | .update => updateParticles sim

/-- Any interleaving of spawn attempts and updates from the initial empty
simulation. -/
def runSim (ops : List SimOp) : ParticleSim := ops.foldl applySimOp ⟨[], []⟩

lemma applySimOp_length_le (sim : ParticleSim) (op : SimOp)
    (hlen : sim.particles.length ≤ maxParticles) :
    (applySimOp sim op).particles.length ≤ maxParticles := by
  cases op with
  | spawn a b c d e f g h i j k =>
    simp only [applySimOp, spawnParticle]
    split_ifs with hc
    · exact hlen
    · push_neg at hc
      simp only [List.length_append, List.length_singleton]
      omega
  | update =>
    simp only [applySimOp, updateParticles]
    calc ((sim.particles.map stepParticle).filter (fun p => decide (0 < p.life))).length
        ≤ (sim.particles.map stepParticle).length := List.length_filter_le _ _
      _ = sim.particles.length := List.length_map _ _
      _ ≤ maxParticles := hlen

/-- C8.  Starting from the empty simulation, after any interleaving of spawn
attempts (with arbitrary geometry and random draws) and physics updates, the
live particle count never exceeds maxParticles = 200; and every spawn attempt
made while the count equals maxParticles returns the simulation unchanged
(live list and pool both untouched). -/
theorem particles_bounded_and_spawn_noop :
    (∀ ops : List SimOp, (runSim ops).particles.length ≤ maxParticles) ∧
    (∀ (a b c d e f g h : ℚ) (i : ℕ) (j k : ℚ) (sim : ParticleSim),
      sim.particles.length = maxParticles →
      spawnParticle a b c d e f g h i j k sim = sim) := by
  constructor
  · intro ops
    have aux : ∀ (l : List SimOp) (sim : ParticleSim),
        sim.particles.length ≤ maxParticles →
        (l.foldl applySimOp sim).particles.length ≤ maxParticles := by
      intro l
      induction l with
      | nil => intro sim h; exact h
      | cons op t ih =>
        intro sim h
        exact ih _ (applySimOp_length_le sim op h)
    exact aux ops ⟨[], []⟩ (by simp [maxParticles])
  · intro a b c d e f g h i j k sim hfull
    unfold spawnParticle
    rw [if_pos (le_of_eq hfull.symm)]

/-- Witness for particles_bounded_and_spawn_noop: a spawn attempt on a
simulation already holding 200 particles is the identity. -/
theorem particles_bounded_and_spawn_noop_witness :
    (ParticleSim.mk (List.replicate 200 ⟨0, 0, 0, 0, 1, 0, 1, 0⟩) []).particles.length =
      maxParticles ∧
    spawnParticle 1 1 1 800 200 0 0 0 3 50 60
        ⟨List.replicate 200 ⟨0, 0, 0, 0, 1, 0, 1, 0⟩, []⟩ =
      ⟨List.replicate 200 ⟨0, 0, 0, 0, 1, 0, 1, 0⟩, []⟩ :=
  ⟨by simp only [List.length_replicate, maxParticles],
   particles_bounded_and_spawn_noop.2 1 1 1 800 200 0 0 0 3 50 60
    ⟨List.replicate 200 ⟨0, 0, 0, 0, 1, 0, 1, 0⟩, []⟩
    (by simp only [List.length_replicate, maxParticles])⟩

/-! ## AudioVisualizer stop (docs app.js lines 440-456) -/

/-- Mutable per-tick state of the docs AudioVisualizer that stop touches or
is claimed to touch. -/
structure VisualizerState where
  isRunning : Bool
  animationId : Option ℕ
  barSmoothValues : List ℚ
  barPeaks : List ℚ
  barPeakTimes : List ℚ
  spectrumHistory : List (List ℚ)
  particles : List Particle
  particlePool : List Particle
  rollingAverages : List ℚ
  musicEnergy : ℚ
  bassEnergy : ℚ
  midEnergy : ℚ
  trebleEnergy : ℚ
deriving DecidableEq

/-- Embedding of AudioVisualizer.stop (docs app.js lines 440-456): clear
isRunning and the animation id, fill barSmoothValues and rollingAverages with
0 (length preserved), empty the history and the live particle list, zero the
four band energies.  The source does NOT touch barPeaks, barPeakTimes or the
particle pool. -/
def stop (s : VisualizerState) : VisualizerState :=
  { s with
    isRunning := false
    animationId := none
    barSmoothValues := List.replicate s.barSmoothValues.length 0
    spectrumHistory := []
    particles := []
    rollingAverages := List.replicate s.rollingAverages.length 0
    musicEnergy := 0
    bassEnergy := 0
    midEnergy := 0
    trebleEnergy := 0 }

/-- C3, counterexample.  A running state whose bar 0 holds peak 50: after
stop, the per-bar peak (and its timestamp) is still 50, not reset to zero, so
a subsequent start observes the stale peak. -/
theorem stop_leaves_peaks_counterexample :
    (stop ⟨true, some 1, [70], [50], [3], [[1]], [], [], [4], 5, 6, 7, 8⟩).barPeaks = [50] ∧
    (stop ⟨true, some 1, [70], [50], [3], [[1]], [], [], [4], 5, 6, 7, 8⟩).barPeakTimes = [3] ∧
    ([50] : List ℚ) ≠ [0] := by
  refine ⟨rfl, rfl, by decide⟩

/-- C3, amended.  Calling stop is idempotent and resets the per-bar smoothed
values, the history ring, the live particles, the rolling averages and the
band energies to quiescent zero/empty values — but it leaves the per-bar
peaks and peak timestamps (and the particle free pool) unchanged, so a
subsequent start can observe stale peak state from the previous run. -/
theorem stop_idempotent_and_resets (s : VisualizerState) :
    stop (stop s) = stop s ∧
    (stop s).isRunning = false ∧
    (stop s).animationId = none ∧
    (stop s).barSmoothValues = List.replicate s.barSmoothValues.length 0 ∧
    (stop s).spectrumHistory = [] ∧
    (stop s).particles = [] ∧
    (stop s).rollingAverages = List.replicate s.rollingAverages.length 0 ∧
    (stop s).musicEnergy = 0 ∧ (stop s).bassEnergy = 0 ∧
    (stop s).midEnergy = 0 ∧ (stop s).trebleEnergy = 0 ∧
    (stop s).barPeaks = s.barPeaks ∧ (stop s).barPeakTimes = s.barPeakTimes := by
  refine ⟨?_, rfl, rfl, rfl, rfl, rfl, rfl, rfl, rfl, rfl, rfl, rfl, rfl⟩
  simp only [stop, List.length_replicate]

/-! ## LevelShaper variants (part_000 processAudioLevel, docs app.js
applySigmoidScaling) -/

/-- Field this.noiseMargin of the noise-aware variant (part_000 line 20). -/
def noiseMargin : ℚ := 5

/-- Embedding of processAudioLevel of the noise-aware variant (part_000 lines
220-225): subtract the noise average and the margin, floor at 0, scale to a
percentage and clamp into [1, 100]. -/
def processAudioLevelNoise (rawLevel noiseLevel : ℚ) : ℚ :=
  let cleanedLevel := max 0 (rawLevel - noiseLevel - noiseMargin)
  let barHeight := cleanedLevel / 255 * 100
  max 1 (min 100 barHeight)

/-- Embedding of applySigmoidScaling (docs app.js lines 615-634): logistic
remap above the noise floor, a small linear ramp at or below it, clamped into
[1, 100]. -/
noncomputable def applySigmoidScaling (rawLevel : ℝ) : ℝ :=
  let noiseFloor : ℝ := 40
  let midpoint : ℝ := 55
  let steepness : ℝ := 0.03
  let maxHeight : ℝ := 100
  let noiseAdjustedInput := max 0 ((rawLevel - noiseFloor) / (255 - noiseFloor))
  let sigmoidInput := (noiseAdjustedInput * 255 - midpoint) * steepness
  let sigmoidOutput := 1 / (1 + Real.exp (-sigmoidInput))
  let scaledHeight := sigmoidOutput * maxHeight
  let finalHeight := if noiseFloor < rawLevel then scaledHeight
    else rawLevel / noiseFloor * 5
  max 1 (min 100 finalHeight)

/-- C6.  Both level-shaper variants return a percentage in [1, 100] for every
raw averaged input in [0, 255] and every noise value in [0, 255]; 0 is never
emitted. -/
theorem levelShaper_output_range (raw noise : ℚ) (rawR : ℝ)
    (_h1 : 0 ≤ raw) (_h2 : raw ≤ 255) (_h3 : 0 ≤ noise) (_h4 : noise ≤ 255)
    (_h5 : 0 ≤ rawR) (_h6 : rawR ≤ 255) :
    (1 ≤ processAudioLevelNoise raw noise ∧ processAudioLevelNoise raw noise ≤ 100) ∧
    (1 ≤ applySigmoidScaling rawR ∧ applySigmoidScaling rawR ≤ 100) := by
  constructor
  · exact ⟨le_max_left _ _, max_le (by norm_num) (min_le_left _ _)⟩
  · exact ⟨le_max_left _ _, max_le (by norm_num) (min_le_left _ _)⟩

/-- Witness for levelShaper_output_range at raw = 0, noise = 0. -/
theorem levelShaper_output_range_witness :
    ((0 : ℚ) ≤ 0 ∧ (0 : ℚ) ≤ 255 ∧ (0 : ℝ) ≤ 0 ∧ (0 : ℝ) ≤ 255) ∧
    (1 ≤ processAudioLevelNoise 0 0 ∧ processAudioLevelNoise 0 0 ≤ 100) ∧
    (1 ≤ applySigmoidScaling 0 ∧ applySigmoidScaling 0 ≤ 100) :=
  ⟨⟨le_refl 0, by norm_num, le_refl 0, by norm_num⟩,
   (levelShaper_output_range 0 0 0 le_rfl (by norm_num) le_rfl (by norm_num)
     le_rfl (by norm_num)).1,
   (levelShaper_output_range 0 0 0 le_rfl (by norm_num) le_rfl (by norm_num)
     le_rfl (by norm_num)).2⟩

/-! ## Per-bar bucketing (audio-visualizer.js animate lines 115-127, docs
app.js animate lines 471-483) -/

/-- Math.floor(bufferLength * 0.6) of src/audio-visualizer.js, written in
natural-number arithmetic; exact at the session value bufferLength = 128
(fftSize 256 gives frequencyBinCount 128, and floor(128 * 0.6) = 76). -/
def usableRange60 (bufferLength : ℕ) : ℕ := bufferLength * 6 / 10

/-- Math.floor(bufferLength * 0.55) of the docs variant; exact at the session
value 128 (floor(128 * 0.55) = 70). -/
def usableRange55 (bufferLength : ℕ) : ℕ := bufferLength * 55 / 100

/-- barWidth = Math.floor(usableRange / barCount) of src/audio-visualizer.js. -/
def srcBarWidth (bufferLength barCount : ℕ) : ℕ := usableRange60 bufferLength / barCount

/-- barWidth = Math.max(1, Math.floor(usableRange / barCount)) of the docs
variant. -/
def docsBarWidth (bufferLength barCount : ℕ) : ℕ :=
  max 1 (usableRange55 bufferLength / barCount)

/-- startIndex = i * barWidth. -/
def bucketStart (barWidth i : ℕ) : ℕ := i * barWidth

/-- endIndex = Math.min(startIndex + barWidth, usableRange). -/
def bucketEnd (usable barWidth i : ℕ) : ℕ := min (i * barWidth + barWidth) usable

/-- C7.  For the session configurations the code constructs (bufferLength 128
with 64 bars in src/audio-visualizer.js, bufferLength 128 with 48 bars in the
docs variant), every bar bucket satisfies startIndex < endIndex, so the
per-bar average sum / (endIndex - startIndex) never divides by a zero sample
count and bar values are never NaN. -/
theorem bucket_divisor_positive (i : ℕ) :
    (i < 64 →
      bucketStart (srcBarWidth 128 64) i <
        bucketEnd (usableRange60 128) (srcBarWidth 128 64) i) ∧
    (i < 48 →
      bucketStart (docsBarWidth 128 48) i <
        bucketEnd (usableRange55 128) (docsBarWidth 128 48) i) := by
  constructor
  · intro hi
    have hw : srcBarWidth 128 64 = 1 := by decide
    have hu : usableRange60 128 = 76 := by decide
    rw [hw, hu, bucketStart, bucketEnd]
    omega
  · intro hi
    have hw : docsBarWidth 128 48 = 1 := by decide
    have hu : usableRange55 128 = 70 := by decide
    rw [hw, hu, bucketStart, bucketEnd]
    omega

/-- Witness for bucket_divisor_positive at the last shared bar index 47. -/
theorem bucket_divisor_positive_witness :
    (47 < 64 ∧ bucketStart (srcBarWidth 128 64) 47 <
      bucketEnd (usableRange60 128) (srcBarWidth 128 64) 47) ∧
    (47 < 48 ∧ bucketStart (docsBarWidth 128 48) 47 <
      bucketEnd (usableRange55 128) (docsBarWidth 128 48) 47) :=
  ⟨⟨by decide, (bucket_divisor_positive 47).1 (by decide)⟩,
   ⟨by decide, (bucket_divisor_positive 47).2 (by decide)⟩⟩

/-! ## StereoMeter full per-tick RMS extraction (channel-meters.js,
calculateFilteredRMS lines 106-157) -/

/-- Mutable per-channel state read or written by calculateFilteredRMS: the
adaptive baseline (leftBaseline / rightBaseline) and the short history of
recent output percentages (leftHistory / rightHistory). -/
structure ChannelState where
  baseline : ℝ
  history : List ℝ

/-- Embedding of the accumulation loop (channel-meters.js lines 107-120):
for every bin, cleanLevel = max(0, raw - baseline); bins whose cleanLevel
exceeds the noise gate 25 contribute (cleanLevel/255)^2 to the sum and bump
the valid-sample counter. -/
noncomputable def validStats (dataArray : List ℕ) (baseline : ℝ) : ℝ × ℕ :=
  dataArray.foldl (fun acc rawLevel =>
    let cleanLevel := max 0 ((rawLevel : ℝ) - baseline)
    if 25 < cleanLevel then
      let normalized := cleanLevel / 255
      (acc.1 + normalized * normalized, acc.2 + 1)
    else acc) (0, 0)

/-- Embedding of the percentage shaping (channel-meters.js lines 128-136):
scale rms by 200, soft-knee the part above 80, cap at 95 and apply the
perceptual curve (pct/100)^0.6 * 100. -/
noncomputable def percentageStage (rms : ℝ) : ℝ :=
  let p1 := rms * 200
  let p2 := if 80 < p1 then 80 + (p1 - 80) * 0.3 else p1
  let p3 := min 95 p2
  (p3 / 100) ^ (0.6 : ℝ) * 100

/-- Embedding of calculateFilteredRMS (channel-meters.js lines 106-157):
accumulate the gated bins, return 0 early when fewer than 3 bins cleared the
gate or the rms is below 0.02, otherwise shape the percentage and run the
history blend stage.  Returns the output level and the updated channel
state. -/
noncomputable def calculateFilteredRMS (dataArray : List ℕ) (s : ChannelState) :
    ℝ × ChannelState :=
  let stats := validStats dataArray s.baseline
  if stats.2 < 3 then (0, s)
  else
    let rms := Real.sqrt (stats.1 / (stats.2 : ℝ))
    if rms < 0.02 then (0, s)
    else
      let percentage := percentageStage rms
      let res := blendStage s.history percentage
      (res.1, ⟨s.baseline, res.2⟩)

lemma blendStage_snd {α : Type} [LinearOrderedField α] (history : List α) (p : α) :
    (blendStage history p).2 = pushHistory history p := by
  simp only [blendStage]
  split_ifs <;> rfl

/-- C10.  Whenever calculateFilteredRMS exits early — fewer than 3 bins
cleared the noise gate, or the rms fell below 0.02 — it returns 0 and leaves
the channel state (baseline and history) completely unchanged; and on every
non-gated invocation the baseline is still untouched and exactly one entry,
the shaped percentage, is pushed into the history. -/
theorem calculateFilteredRMS_gated_frame (dataArray : List ℕ) (s : ChannelState) :
    (((validStats dataArray s.baseline).2 < 3 ∨
        Real.sqrt ((validStats dataArray s.baseline).1 /
          ((validStats dataArray s.baseline).2 : ℝ)) < 0.02) →
      calculateFilteredRMS dataArray s = (0, s)) ∧
    (¬ ((validStats dataArray s.baseline).2 < 3 ∨
        Real.sqrt ((validStats dataArray s.baseline).1 /
          ((validStats dataArray s.baseline).2 : ℝ)) < 0.02) →
      (calculateFilteredRMS dataArray s).2.baseline = s.baseline ∧
      (calculateFilteredRMS dataArray s).2.history =
        pushHistory s.history (percentageStage (Real.sqrt
          ((validStats dataArray s.baseline).1 /
            ((validStats dataArray s.baseline).2 : ℝ))))) := by
  constructor
  · intro hgate
    simp only [calculateFilteredRMS]
    rcases hgate with h | h
    · rw [if_pos h]
    · by_cases h3 : (validStats dataArray s.baseline).2 < 3
      · rw [if_pos h3]
      · rw [if_neg h3, if_pos h]
  · intro hgate
    have h3 : ¬ (validStats dataArray s.baseline).2 < 3 := fun h => hgate (Or.inl h)
    have h02 : ¬ Real.sqrt ((validStats dataArray s.baseline).1 /
        ((validStats dataArray s.baseline).2 : ℝ)) < 0.02 := fun h => hgate (Or.inr h)
    simp only [calculateFilteredRMS]
    rw [if_neg h3, if_neg h02]
    exact ⟨rfl, blendStage_snd s.history _⟩

/-- Witness for calculateFilteredRMS_gated_frame: on the snapshot [0, 10, 20]
with baseline 0 no bin clears the noise gate, so the call returns 0 and the
state (baseline 0, history [5]) is unchanged. -/
theorem calculateFilteredRMS_gated_frame_witness :
    ((validStats [0, 10, 20] (ChannelState.mk 0 [5]).baseline).2 < 3 ∨
      Real.sqrt ((validStats [0, 10, 20] (ChannelState.mk 0 [5]).baseline).1 /
        ((validStats [0, 10, 20] (ChannelState.mk 0 [5]).baseline).2 : ℝ)) < 0.02) ∧
    calculateFilteredRMS [0, 10, 20] (ChannelState.mk 0 [5]) = (0, ChannelState.mk 0 [5]) :=
  ⟨Or.inl (by norm_num [validStats, List.foldl_cons, List.foldl_nil]),
   (calculateFilteredRMS_gated_frame [0, 10, 20] (ChannelState.mk 0 [5])).1
     (Or.inl (by norm_num [validStats, List.foldl_cons, List.foldl_nil]))⟩

end WebMusic
